import Mathlib

/-!
Shallow embedding of the crisis-simulation engine
(`src/env/world.py`, `src/env/agents.py`, `src/env/dynamics.py`,
`src/tools/routing.py`, `src/tools/hospital.py`).

Python sets/dicts are modelled as lists (membership-checked inserts,
association lists preserving insertion order); floats as rationals (all
values occurring are dyadic, so this is exact); Python exceptions as
`Except Unit`; `random.Random` draws as an abstract sampler threaded
explicitly, with a concrete LCG standing in for the seeded stream.
-/

namespace Crisis

/-- Grid coordinates are Python int pairs. -/
abbrev Pos := ℤ × ℤ

/-- A random sampler: produces the next `random.random()` value in `[0,1)`
and the advanced generator state. -/
abbrev Sampler (S : Type) := S → ℚ × S

/-- Stream sampler: the state is an index into a fixed sequence of draws. -/
def streamSampler (f : ℕ → ℚ) : Sampler ℕ := fun i => (f i, i + 1)

/-- Concrete LCG standing in for Python `random.Random(seed)`
(a deterministic function of the seed, which is all the engine relies on). -/
def lcgNext : Sampler ℕ := fun s =>
  let s1 : ℕ := (s * 1103515245 + 12345) % 2147483648
  (((s1 : ℤ) : ℚ) / 2147483648, s1)

/-- `random.randrange(n)`: an integer in `[0, n)` derived from one draw. -/
def randBelow {S : Type} (next : Sampler S) (n : ℤ) (s : S) : ℤ × S :=
  let (q, s1) := next s
  (max 0 (min (n - 1) ⌊q * (n : ℚ)⌋), s1)

/-- One simulated entity: mirrors the `mesa.Agent` subclasses in
`src/env/agents.py` (`DroneAgent`, `MedicAgent`, `TruckAgent`, `Survivor`).
Class-specific attributes become `Option` fields (`none` = the Python
object has no such attribute, for the `hasattr` checks in `world.py`). -/
structure AgentSt where
  uid : String
  kind : String
  pos : Pos
  battery : Option ℚ := none
  water : Option ℚ := none
  carrying : Bool := false
  carryingSurvivor : Option String := none
  health : ℚ := 0
  spawnTime : ℕ := 0
  picked : Bool := false
  rescued : Bool := false
  dead : Bool := false
  pickedTime : Option ℕ := none
deriving DecidableEq

/-- The mutable state of `CrisisModel` (`src/env/world.py`).
`queues` is the `hospital_queues` dict (insertion-ordered association
list holding survivor ids: queue entries reference the survivor objects,
whose mutable state lives in `agents`). -/
structure World where
  width : ℤ
  height : ℤ
  time : ℕ := 0
  fires : List Pos := []
  rubble : List Pos := []
  hospitals : List Pos := []
  depot : Option Pos := none
  queues : List (Pos × List String) := []
  hospital_service_rate : ℚ := 3 / 10
  agents : List AgentSt := []
  rescued : ℕ := 0
  deaths : ℕ := 0
  fires_extinguished : ℕ := 0
  roads_cleared : ℕ := 0
  energy_used : ℕ := 0
  tool_calls : ℕ := 0
  invalid_json : ℕ := 0
  replans : ℕ := 0
  hospital_overflow_events : ℕ := 0
  total_survivors : ℕ := 0
  rescue_times : List ℤ := []
deriving DecidableEq

/-- The initialisation configuration consumed by `_initialize_world`. -/
structure Config where
  depot : Option Pos := none
  hospitals : List Pos := []
  initial_fires : List Pos := []
  rubble : List Pos := []
  survivors : ℕ := 0
deriving DecidableEq

/-- Python `set.add`: insert a position if not already present. -/
def insertPos (p : Pos) (l : List Pos) : List Pos :=
  if p ∈ l then l else l ++ [p]

/-- `hospital_queues.get(pos, [])`. -/
def qGetD (qs : List (Pos × List String)) (p : Pos) : List String :=
  (((qs.find? fun e => e.1 = p).map fun e => e.2)).getD []

/-- `hospital_queues[pos] = v`: update in place, or append a new key. -/
def qSet (qs : List (Pos × List String)) (p : Pos) (v : List String) :
    List (Pos × List String) :=
  if qs.any fun e => e.1 = p then
    qs.map fun e => if e.1 = p then (p, v) else e
  else qs ++ [(p, v)]

/-- In-bounds check `0 <= x < width and 0 <= y < height`. -/
def inB (w : World) (p : Pos) : Prop :=
  0 ≤ p.1 ∧ p.1 < w.width ∧ 0 ≤ p.2 ∧ p.2 < w.height

instance (w : World) (p : Pos) : Decidable (inB w p) := by
  unfold inB; infer_instance

/-! ### World initialisation (`CrisisModel.__init__` / `_initialize_world`) -/

/-- One `randrange(width)` / `randrange(height)` pair. -/
def drawPos {S : Type} (next : Sampler S) (wd ht : ℤ) (s : S) : Pos × S :=
  let (x, s1) := randBelow next wd s
  let (y, s2) := randBelow next ht s1
  ((x, y), s2)

/-- The re-draw `while` loop placing a survivor on a cell free of fire,
rubble, hospital and depot. The source loops until a free cell is found;
fuel bounds the modelled recursion (ample for all inputs considered). -/
def placeRetry {S : Type} (next : Sampler S) (wd ht : ℤ) (bad : Pos → Bool) :
    ℕ → Pos → S → Pos × S
  | 0, p, s => (p, s)
  | Nat.succ fuel, p, s =>
    if bad p then
      let (q, s1) := drawPos next wd ht s
      placeRetry next wd ht bad fuel q s1
    else (p, s)

/-- Spawn `survivor_i` (health 100, spawn tick = current time). -/
def spawnOne {S : Type} (next : Sampler S) (ws : World × S) (i : ℕ) : World × S :=
  let (w, s) := ws
  let bad : Pos → Bool := fun p =>
    decide (p ∈ w.fires) || decide (p ∈ w.rubble) ||
    decide (p ∈ w.hospitals) || decide (w.depot = some p)
  let (p0, s1) := drawPos next w.width w.height s
  let (p, s2) := placeRetry next w.width w.height bad 1000 p0 s1
  let a : AgentSt :=
    { uid := "survivor_" ++ toString i, kind := "survivor", pos := p,
      health := 100, spawnTime := w.time }
  ({ w with agents := w.agents ++ [a] }, s2)

/-- `CrisisModel.__init__` + `_initialize_world`: terrain from config,
survivors placed at random free cells, one drone/medic/truck at the depot
(only when a depot is configured, mirroring `if self.depot:`). -/
def initModel {S : Type} (next : Sampler S) (width height : ℤ) (cfg : Config)
    (s : S) : World × S :=
  let w0 : World :=
    { width := width, height := height,
      depot := cfg.depot,
      hospitals := cfg.hospitals,
      queues := cfg.hospitals.foldl (fun qs p => qSet qs p []) [],
      fires := cfg.initial_fires.foldl (fun fs p => insertPos p fs) [],
      rubble := cfg.rubble.foldl (fun rs p => insertPos p rs) [],
      total_survivors := cfg.survivors }
  let (w1, s1) := (List.range cfg.survivors).foldl (spawnOne next) (w0, s)
  let w2 :=
    match w1.depot with
    | some d =>
      { w1 with agents := w1.agents ++
          [{ uid := "drone_0", kind := "drone", pos := d, battery := some 100 },
           { uid := "medic_0", kind := "medic", pos := d },
           { uid := "truck_0", kind := "truck", pos := d, water := some 100 }] }
    | none => w1
  (w2, s1)

/-! ### Command execution (`_execute_single_command` and the four actions) -/

/-- A JSON-ish Python value, as found in the fields of a command dict. -/
inductive JVal where
  | jnull : JVal
  | jint : ℤ → JVal
  | jstr : String → JVal
  | jlist : List JVal → JVal

/-- A planner command record: `cmd.get(key)` yields `none` for a missing
key. `bad` models a value that is not a dict at all (`cmd.get` raises). -/
inductive CmdRec where
  | mk : Option JVal → Option JVal → Option JVal → Option JVal → CmdRec
  | bad : CmdRec

/-- Python truthiness of a command field value. -/
def truthy : JVal → Bool
  | .jnull => false
  | .jint n => n ≠ 0
  | .jstr s => s ≠ ""
  | .jlist xs => !xs.isEmpty

/-- `len(v)`: defined for lists and strings, raises otherwise. -/
def jlen : JVal → Except Unit ℕ
  | .jlist xs => .ok xs.length
  | .jstr s => .ok s.length
  | _ => .error ()

/-- Python `field == "lit"`: true only for an equal string (comparing a
string with any other value is `False`, never an error). -/
def jIsStr (v : Option JVal) (t : String) : Bool :=
  match v with
  | some (.jstr s) => s = t
  | _ => false

/-- Agent lookup by `unique_id` over `schedule.agents` (units and
survivors alike). A non-string id matches nothing. -/
def findAgent (w : World) (aid : Option JVal) : Option AgentSt :=
  match aid with
  | some (.jstr s) => w.agents.find? fun a => a.uid = s
  | _ => none

/-- `_move_agent`: reject out-of-bounds or rubble targets, otherwise move,
decrement an existing battery by 1 (floor 0) and count the energy. -/
def moveAgent (w : World) (uid : String) (p : Pos) : World :=
  if ¬ inB w p then w
  else if p ∈ w.rubble then w
  else
    { w with
      agents := w.agents.map fun a =>
        if a.uid = uid then
          { a with pos := p, battery := a.battery.map fun b => max 0 (b - 1) }
        else a,
      energy_used := w.energy_used + 1 }

/-- The `move` branch down to `_move_agent`, on raw field values: a
non-int coordinate raises at the `0 <= x` comparison, except that an
out-of-bounds first coordinate short-circuits before the second is read. -/
def moveAgentJ (w : World) (uid : String) (vx vy : JVal) : Except Unit World :=
  match vx with
  | .jint x =>
    if ¬ (0 ≤ x ∧ x < w.width) then .ok w
    else
      match vy with
      | .jint y => .ok (moveAgent w uid (x, y))
      | _ => .error ()
  | _ => .error ()

/-- `_extinguish_fire`: needs fire at the truck position and water left. -/
def extinguishFire (w : World) (uid : String) : World :=
  match w.agents.find? fun a => a.uid = uid with
  | none => w
  | some a =>
    match a.water with
    | some wt =>
      if a.pos ∈ w.fires ∧ wt > 0 then
        { w with
          fires := w.fires.filter fun p => p ≠ a.pos,
          agents := w.agents.map fun b =>
            if b.uid = uid then { b with water := some (max 0 (wt - 10)) } else b,
          fires_extinguished := w.fires_extinguished + 1 }
      else w
    | none => w

/-- `_pickup_survivor`: a free medic picks the first not-yet-picked
survivor sharing its cell, records the pick-up tick on the survivor and
takes the reference. (The source does not test the `_dead` flag.) -/
def pickupSurvivor (w : World) (uid : String) : World :=
  match w.agents.find? fun a => a.uid = uid with
  | none => w
  | some a =>
    if a.carrying then w
    else
      match w.agents.find? fun b =>
          b.pos = a.pos ∧ b.kind = "survivor" ∧ b.picked = false with
      | none => w
      | some sv =>
        { w with agents := w.agents.map fun b =>
            if b.uid = sv.uid then
              { b with picked := true, pickedTime := some w.time }
            else if b.uid = uid then
              { b with carrying := true, carryingSurvivor := some sv.uid }
            else b }

/-- Clear a medic's carrying state. -/
def clearCarry (agents : List AgentSt) (uid : String) : List AgentSt :=
  agents.map fun a =>
    if a.uid = uid then { a with carrying := false, carryingSurvivor := none }
    else a

/-- `_drop_at_hospital`: on a hospital cell, append the held survivor id
to that queue (never rejected), raise the overflow counter when the queue
now exceeds 5, and clear the carrying state unconditionally. -/
def dropAtHospital (w : World) (uid : String) : World :=
  match w.agents.find? fun a => a.uid = uid with
  | none => w
  | some a =>
    if ¬ a.carrying then w
    else if a.pos ∈ w.hospitals then
      match a.carryingSurvivor with
      | some sv =>
        let q1 := qGetD w.queues a.pos ++ [sv]
        let w1 :=
          { w with
            queues := qSet w.queues a.pos q1,
            hospital_overflow_events :=
              w.hospital_overflow_events + (if 5 < q1.length then 1 else 0) }
        { w1 with agents := clearCarry w1.agents uid }
      | none => { w with agents := clearCarry w.agents uid }
    else w

/-- `_execute_single_command`: resolve the agent (silent no-op when the id
is unknown), then dispatch on the command type. `.error` marks the places
where the source would raise (caught by the caller). -/
def executeSingleCommand (cmd : CmdRec) (w : World) : Except Unit World :=
  match cmd with
  | .bad => .error ()
  | .mk aid ctype cto caction =>
    match findAgent w aid with
    | none => .ok w
    | some a =>
      if jIsStr ctype "move" then
        match cto with
        | none => .ok w
        | some v =>
          if truthy v = false then .ok w
          else
            match jlen v with
            | .error _ => .error ()
            | .ok n =>
              if n ≠ 2 then .ok w
              else
                match v with
                | .jlist [vx, vy] => moveAgentJ w a.uid vx vy
                | _ => .error ()
      else if jIsStr ctype "act" then
        if jIsStr caction "extinguish" ∧ a.kind = "truck" then
          .ok (extinguishFire w a.uid)
        else if jIsStr caction "pickup_survivor" ∧ a.kind = "medic" then
          .ok (pickupSurvivor w a.uid)
        else if jIsStr caction "drop_at_hospital" ∧ a.kind = "medic" then
          .ok (dropAtHospital w a.uid)
        else .ok w
      else .ok w

/-- One iteration of `_execute_commands`: `try` the command, on any
exception count it in `invalid_json` and continue. -/
def execOne (w : World) (cmd : CmdRec) : World :=
  match executeSingleCommand cmd w with
  | .ok w2 => w2
  | .error _ => { w with invalid_json := w.invalid_json + 1 }

/-- `_execute_commands`: run the planned commands in list order. -/
def executeCommands (w : World) (cmds : List CmdRec) : World :=
  cmds.foldl execOne w

/-- The number of commands of the list that raise internally when the
list is executed from `w` (each command sees the state its predecessors
left behind). -/
def countFailedRun (w : World) : List CmdRec → ℕ
  | [] => 0
  | c :: tl =>
    (if (executeSingleCommand c w).isOk then 0 else 1) +
      countFailedRun (execOne w c) tl

/-! ### Agent stepping (`Survivor.step`, `DroneAgent.step`) -/

/-- One agent's `step`: an unpicked/unrescued/alive survivor decays by 1
health and dies (counting one death) at health ≤ 0; a drone with charge
loses 0.5 battery; medics and trucks do nothing. Returns the number of
deaths the step caused. -/
def agentTick (a : AgentSt) : AgentSt × ℕ :=
  if a.kind = "survivor" then
    if a.picked = false ∧ a.rescued = false ∧ a.dead = false then
      let h := a.health - 1
      if h ≤ 0 then ({ a with health := h, dead := true }, 1)
      else ({ a with health := h }, 0)
    else (a, 0)
  else if a.kind = "drone" then
    match a.battery with
    | some b =>
      if b > 0 then ({ a with battery := some (max 0 (b - 1 / 2)) }, 0)
      else (a, 0)
    | none => (a, 0)
  else (a, 0)

/-- `schedule.step()`. `RandomActivation` steps the agents in a shuffled
order; each `step` touches only the agent's own fields and the global
death counter, so the result does not depend on the order and the shuffle
draws are not modelled. -/
def scheduleStep (w : World) : World :=
  let l := w.agents.map agentTick
  { w with
    agents := l.map fun e => e.1,
    deaths := w.deaths + (l.map fun e => e.2).sum }

/-! ### Fire dynamics (`CrisisModel._apply_dynamics`) -/

/-- The 8 neighbour offsets, in the `dx`/`dy` loop order of the source. -/
def neighborOffsets : List (ℤ × ℤ) :=
  [(-1, -1), (-1, 0), (-1, 1), (0, -1), (0, 1), (1, -1), (1, 0), (1, 1)]

/-- Spread attempts from one burning cell: each bounded neighbour that is
not already on fire (in the tick-start fire set) and not rubble consumes
one draw and catches fire on `draw < 0.05`. Note the executed code checks
neither hospitals nor the depot. -/
def spreadFromCell {S : Type} (next : Sampler S) (w : World) (p : Pos)
    (acc : List Pos × S) : List Pos × S :=
  neighborOffsets.foldl
    (fun acc d =>
      let (nf, s) := acc
      let c : Pos := (p.1 + d.1, p.2 + d.2)
      if 0 ≤ c.1 ∧ c.1 < w.width ∧ 0 ≤ c.2 ∧ c.2 < w.height ∧
          c ∉ w.fires ∧ c ∉ w.rubble then
        let (q, s1) := next s
        if q < 5 / 100 then (insertPos c nf, s1) else (nf, s1)
      else (nf, s))
    acc

/-- `_apply_dynamics`: collect the newly caught cells from the tick-start
fire set, then merge them in (`self.fires.update(new_fires)`). -/
def applyDynamics {S : Type} (next : Sampler S) (w : World) (s : S) :
    World × S :=
  let (nf, s1) := w.fires.foldl (fun acc p => spreadFromCell next w p acc) ([], s)
  ({ w with fires := nf.foldl (fun fs c => insertPos c fs) w.fires }, s1)

/-! ### Hospital processing (`CrisisModel._process_hospitals`) -/

/-- Mark the survivor object `_rescued = True`. -/
def setAgentRescued (agents : List AgentSt) (uid : String) : List AgentSt :=
  agents.map fun a => if a.uid = uid then { a with rescued := true } else a

/-- One hospital's per-tick service: an empty queue consumes no draw; a
non-empty queue draws once and on `draw < service_rate` pops the head,
marks it rescued, counts it, and records `time − picked_time` as the
rescue latency. A queued survivor whose `_picked_time` is still `None`
would make the source raise a `TypeError` on that subtraction (`.error`);
the engine only ever queues survivors whose pick-up set the time. -/
def processOneHospital {S : Type} (next : Sampler S) (w : World)
    (q : List String) (s : S) : Except Unit (World × List String × S) :=
  match q with
  | [] => .ok (w, q, s)
  | uid :: rest =>
    let (r, s1) := next s
    if r < w.hospital_service_rate then
      match w.agents.find? fun a => a.uid = uid with
      | some a =>
        match a.pickedTime with
        | some t =>
          .ok ({ w with agents := setAgentRescued w.agents uid,
                        rescued := w.rescued + 1,
                        rescue_times := w.rescue_times ++ [(w.time : ℤ) - (t : ℤ)] },
               rest, s1)
        | none => .error ()
      | none =>
        .ok ({ w with agents := setAgentRescued w.agents uid,
                      rescued := w.rescued + 1 }, rest, s1)
    else .ok (w, q, s1)

/-- The loop of `_process_hospitals` over the queue dict, in insertion
order, rebuilding each queue in place. -/
def processQueues {S : Type} (next : Sampler S) :
    List (Pos × List String) → World → S →
    Except Unit (List (Pos × List String) × World × S)
  | [], w, s => .ok ([], w, s)
  | (p, q) :: tl, w, s => do
    let (w1, q1, s1) ← processOneHospital next w q s
    let (tl1, w2, s2) ← processQueues next tl w1 s1
    .ok ((p, q1) :: tl1, w2, s2)

/-- `_process_hospitals`. -/
def processHospitals {S : Type} (next : Sampler S) (w : World) (s : S) :
    Except Unit (World × S) := do
  let (qs, w1, s1) ← processQueues next w.queues w s
  .ok ({ w1 with queues := qs }, s1)

/-! ### The tick loop (`set_plan` + `CrisisModel.step`) -/

/-- `set_plan(cmds)` followed by `step()`: bump the tick counter and the
tool-call tally, execute the commands, step the agents, apply the fire
dynamics, process the hospitals. (The data-collector append has no effect
on engine state and is not modelled.) -/
def stepWorld {S : Type} (next : Sampler S) (cmds : List CmdRec) (w : World)
    (s : S) : Except Unit (World × S) := do
  let w1 := { w with time := w.time + 1, tool_calls := w.tool_calls + cmds.length }
  let w2 := executeCommands w1 cmds
  let w3 := scheduleStep w2
  let (w4, s1) := applyDynamics next w3 s
  processHospitals next w4 s1

/-- Drive the engine for one tick per command list, as `run_episode` does. -/
def runTicks {S : Type} (next : Sampler S) :
    List (List CmdRec) → World → S → Except Unit (World × S)
  | [], w, s => .ok (w, s)
  | cmds :: tl, w, s => do
    let (w1, s1) ← stepWorld next cmds w s
    runTicks next tl w1 s1

/-- Build a model from a configuration and run it over a command schedule. -/
def runModel {S : Type} (next : Sampler S) (width height : ℤ) (cfg : Config)
    (cmdss : List (List CmdRec)) (s : S) : Except Unit (World × S) :=
  let (w, s1) := initModel next width height cfg s
  runTicks next cmdss w s1

/-- A full seeded run: the pseudo-random stream is the deterministic LCG
stand-in seeded with `rng_seed`, mirroring `random.Random(rng_seed)`. -/
def runSeeded (width height : ℤ) (seed : ℕ) (cfg : Config)
    (cmdss : List (List CmdRec)) : Except Unit (World × ℕ) :=
  runModel lcgNext width height cfg cmdss seed

/-- Extract the world of a successful run (an arbitrary default world
otherwise; used only to name concrete run results in witnesses). -/
def getOkWorld (r : Except Unit (World × ℕ)) : World :=
  match r with
  | .ok (w, _) => w
  | .error _ => { width := 0, height := 0 }

/-- Extract the sampler state of a successful run. -/
def getOkState (r : Except Unit (World × ℕ)) : ℕ :=
  match r with
  | .ok (_, s) => s
  | .error _ => 0

/-! ### Pathfinding (`src/tools/routing.py`) -/

/-- The `model_like` argument of `shortest_path`: dimensions plus
`cell_types[y][x]` terrain kinds. -/
structure SPModel where
  width : ℤ
  height : ℤ
  cell_types : List (List String)
deriving DecidableEq

/-- Manhattan distance between two cells. -/
def manhattan (a b : Pos) : ℕ :=
  (a.1 - b.1).natAbs + (a.2 - b.2).natAbs

/-- A frontier entry `(f, g, position, parent)` as pushed on the heap. -/
abbrev SPEntry := ℕ × ℕ × Pos × Option Pos

/-- Strict lexicographic order on the `(f, g, position)` part of a heap
entry. Two distinct entries never agree on all three (a cell is re-pushed
only with a strictly smaller `g`), so heap pops are determined by this
order and the parent component is never compared (as in the source, where
comparing a `None` parent would raise). -/
def keyLt (a b : SPEntry) : Bool :=
  a.1 < b.1 ∨ (a.1 = b.1 ∧ (a.2.1 < b.2.1 ∨ (a.2.1 = b.2.1 ∧
    (a.2.2.1.1 < b.2.2.1.1 ∨ (a.2.2.1.1 = b.2.2.1.1 ∧ a.2.2.1.2 < b.2.2.1.2)))))

/-- The least entry of a non-empty frontier (earliest wins ties). -/
def minEntry : SPEntry → List SPEntry → SPEntry
  | e, [] => e
  | e, x :: tl => if keyLt x e then minEntry x tl else minEntry e tl

/-- `heappop`: remove and return the least entry. -/
def popMin (l : List SPEntry) : Option (SPEntry × List SPEntry) :=
  match l with
  | [] => none
  | h :: tl =>
    let m := minEntry h tl
    some (m, l.erase m)

/-- `passable`: the cell's terrain kind is not in the avoid set. -/
def passable (m : SPModel) (avoid : List String) (x y : ℤ) : Bool :=
  ((m.cell_types.getD y.toNat []).getD x.toNat "") ∉ avoid

/-- One `came` insertion: only the first parent of a cell is kept. -/
def cameInsert (came : List (Pos × Option Pos)) (cur : Pos)
    (parent : Option Pos) : List (Pos × Option Pos) :=
  if came.any fun e => e.1 = cur then came else came ++ [(cur, parent)]

/-- `cost_so_far` lookup. -/
def costGet (costs : List (Pos × ℕ)) (p : Pos) : Option ℕ :=
  (costs.find? fun e => e.1 = p).map fun e => e.2

/-- `cost_so_far[p] = g`. -/
def costSet (costs : List (Pos × ℕ)) (p : Pos) (g : ℕ) : List (Pos × ℕ) :=
  if costs.any fun e => e.1 = p then
    costs.map fun e => if e.1 = p then (p, g) else e
  else costs ++ [(p, g)]

/-- The neighbour offsets of the source, in order. -/
def spOffsets : List (ℤ × ℤ) := [(1, 0), (-1, 0), (0, 1), (0, -1)]

/-- Expand the current node: push each bounded passable neighbour whose
tentative cost improves on `cost_so_far`. -/
def expandNode (m : SPModel) (avoid : List String) (goal : Pos) (g : ℕ)
    (cur : Pos) (st : List SPEntry × List (Pos × ℕ)) :
    List SPEntry × List (Pos × ℕ) :=
  spOffsets.foldl
    (fun st d =>
      let (openq, costs) := st
      let n : Pos := (cur.1 + d.1, cur.2 + d.2)
      if 0 ≤ n.1 ∧ n.1 < m.width ∧ 0 ≤ n.2 ∧ n.2 < m.height ∧
          passable m avoid n.1 n.2 then
        let ng := g + 1
        if costGet costs n = none ∨ (∃ c, costGet costs n = some c ∧ ng < c) then
          (openq ++ [(ng + manhattan n goal, ng, n, some cur)], costSet costs n ng)
        else (openq, costs)
      else (openq, costs))
    st

/-- The A* main loop, fuelled (the source's `while openq` terminates
because every push strictly lowers a cell's recorded cost). -/
def astarLoop (m : SPModel) (avoid : List String) (goal : Pos) :
    ℕ → List SPEntry → List (Pos × Option Pos) → List (Pos × ℕ) →
    List (Pos × Option Pos)
  | 0, _, came, _ => came
  | Nat.succ fuel, openq, came, costs =>
    match popMin openq with
    | none => came
    | some ((_, g, cur, parent), rest) =>
      let came1 := cameInsert came cur parent
      if cur = goal then came1
      else
        let (rest1, costs1) := expandNode m avoid goal g cur (rest, costs)
        astarLoop m avoid goal fuel rest1 came1 costs1

/-- The path reconstruction loop (`node = came.get(node, start)`), with
the defensive `start` fallback of the source. -/
def reconstruct (came : List (Pos × Option Pos)) (start : Pos) :
    ℕ → Pos → List Pos → List Pos
  | 0, _, path => path
  | Nat.succ fuel, node, path =>
    if node = start then path
    else
      let nxt := ((((came.find? fun e => e.1 = node)).map fun e => e.2).getD
        none).getD start
      reconstruct came start fuel nxt (path ++ [nxt])

/-- The `{status, path, cost}` result record. -/
structure SPResult where
  status : String
  path : List Pos
  cost : Option ℕ
deriving DecidableEq

/-- `shortest_path`: A* on the 4-connected grid, avoiding the given
terrain kinds; `blocked` with empty path and null cost when the goal was
never reached, otherwise the inclusive cell sequence with
`cost = len(path)`. -/
def shortest_path (m : SPModel) (start goal : Pos)
    (avoid : List String := ["fire", "rubble"]) : SPResult :=
  let fuel := ((m.width.toNat * m.height.toNat) + 2) ^ 2
  let came := astarLoop m avoid goal fuel
    [(manhattan start goal, 0, start, none)] [] [(start, 0)]
  if ¬ (came.any fun e => e.1 = goal) ∧ goal ≠ start then
    { status := "blocked", path := [], cost := none }
  else
    let path := (reconstruct came start fuel goal [goal]).reverse
    { status := "ok", path := path, cost := some path.length }

/-! ### Concrete scenarios used by counterexamples and witnesses -/

/-- A well-formed `move` command record. -/
def mkMove (aid : String) (x y : ℤ) : CmdRec :=
  .mk (some (.jstr aid)) (some (.jstr "move"))
    (some (.jlist [.jint x, .jint y])) none

/-- A well-formed `act` command record. -/
def mkAct (aid an : String) : CmdRec :=
  .mk (some (.jstr aid)) (some (.jstr "act")) none (some (.jstr an))

/-- 3×3 scenario: depot `(0,0)`, one hospital `(1,0)`, one survivor. -/
def cfgC1 : Config := { depot := some (0, 0), hospitals := [(1, 0)], survivors := 1 }

/-- Draw stream for the C1 run: the two placement draws put the survivor
at `(2,2)`; the later hospital service draw succeeds (`1/10 < 3/10`). -/
def fC1 : ℕ → ℚ := fun i => if i < 2 then 9 / 10 else 1 / 10

/-- Command schedule: idle for 100 ticks (the survivor starves), then the
medic fetches the now-dead survivor and delivers it to the hospital. -/
def cmdsC1 : List (List CmdRec) :=
  List.replicate 100 [] ++
    [[mkMove "medic_0" 2 2, mkAct "medic_0" "pickup_survivor"],
     [mkMove "medic_0" 1 0, mkAct "medic_0" "drop_at_hospital"]]

/-- The world after the 102-tick C1 run. -/
def wC1 : World := getOkWorld (runModel (streamSampler fC1) 3 3 cfgC1 cmdsC1 0)

/-- The initial world of the C1 scenario (survivor at `(2,2)`, units at
the depot). -/
def wC1init : World := (initModel (streamSampler fC1) 3 3 cfgC1 0).1

/-- 2×1 scenario: a fire at `(0,0)` next to the hospital cell `(1,0)`. -/
def cfgC2 : Config := { hospitals := [(1, 0)], initial_fires := [(0, 0)] }

/-- The initial world of the C2 scenario. -/
def wC2init : World := (initModel (streamSampler fun _ => 0) 2 1 cfgC2 0).1

/-- The world after one tick of the C2 scenario under an always-spread
draw stream (every draw is `0 < 0.05`). -/
def wC2 : World :=
  getOkWorld (runModel (streamSampler fun _ => 0) 2 1 cfgC2 [[]] 0)

/-- 3×3 scenario with rubble, for the rubble-containment witness. -/
def cfgC2b : Config :=
  { hospitals := [(2, 2)], initial_fires := [(0, 0)], rubble := [(1, 1), (0, 1)] }

/-- Initial world of the rubble-containment witness run. -/
def wC2b : World := (initModel (streamSampler fun _ => 0) 3 3 cfgC2b 0).1

/-- Result of running the rubble-containment witness for two ticks under
an always-spread stream. -/
def rC2b : Except Unit (World × ℕ) :=
  runTicks (streamSampler fun _ => 0) [[], []] wC2b 2

/-- The no-obstacle 4×5 grid of the pathing claim (`x` in `0..3`, `y` in
`0..4`, every cell a road). -/
def mNoObs : SPModel := ⟨4, 5, List.replicate 5 (List.replicate 4 "road")⟩

/-- World state after issuing a `move` command for the survivor in the C1
scenario's initial world: the executor happily relocates it. -/
def wC6 : World := executeCommands wC1init [mkMove "survivor_0" 1 1]

/-- A small literal world: one medic carrying `sv0` on the hospital cell
`(4,4)` whose queue already holds five survivors, plus a queued survivor
with a recorded pick-up tick; used by several witnesses. -/
def wEx : World :=
  { width := 5, height := 5, time := 7,
    rubble := [(3, 3)],
    hospitals := [(4, 4)],
    queues := [((4, 4), ["q1", "q2", "q3", "q4", "q5"])],
    agents :=
      [{ uid := "medic_0", kind := "medic", pos := (4, 4), carrying := true,
         carryingSurvivor := some "sv0" },
       { uid := "sv0", kind := "survivor", pos := (4, 4), health := 50,
         picked := true, pickedTime := some 3 },
       { uid := "q1", kind := "survivor", pos := (4, 4), health := 40,
         picked := true, pickedTime := some 2 },
       { uid := "drone_0", kind := "drone", pos := (0, 0), battery := some 9 }] }

/-- The drone record of `wEx`, as a named value for witness statements. -/
def droneEx : AgentSt :=
  { uid := "drone_0", kind := "drone", pos := (0, 0), battery := some 9 }

/-- The medic record of `wEx`. -/
def medicEx : AgentSt :=
  { uid := "medic_0", kind := "medic", pos := (4, 4), carrying := true,
    carryingSurvivor := some "sv0" }

/-- The queued survivor `q1` of `wEx` (picked up at tick 2). -/
def q1Ex : AgentSt :=
  { uid := "q1", kind := "survivor", pos := (4, 4), health := 40,
    picked := true, pickedTime := some 2 }

/-- Decidable equality for `Except`, for witness statements that compare
whole run results. -/
instance exceptDecEq {ε α : Type} [DecidableEq ε] [DecidableEq α] :
    DecidableEq (Except ε α) := fun x y =>
  match x, y with
  | .ok a, .ok b =>
    if h : a = b then .isTrue (by rw [h]) else .isFalse (fun hh => h (Except.ok.inj hh))
  | .error e, .error f =>
    if h : e = f then .isTrue (by rw [h]) else .isFalse (fun hh => h (Except.error.inj hh))
  | .ok _, .error _ => .isFalse fun hh => Except.noConfusion hh
  | .error _, .ok _ => .isFalse fun hh => Except.noConfusion hh

/-- A command whose `to` field is a bare integer: truthy, so the source
reaches `len(target_pos)` and raises a `TypeError`. -/
def cmdBadLen : CmdRec :=
  .mk (some (.jstr "drone_0")) (some (.jstr "move")) (some (.jint 3)) none

/-! ### Helper lemmas -/

theorem mem_insertPos {p c : Pos} {l : List Pos} :
    p ∈ insertPos c l ↔ p = c ∨ p ∈ l := by
  unfold insertPos
  split
  · constructor
    · exact fun h => Or.inr h
    · rintro (rfl | h) <;> assumption
  · simp [or_comm]

theorem mem_foldl_insertPos {l : List Pos} {init : List Pos} {p : Pos} :
    p ∈ l.foldl (fun fs c => insertPos c fs) init ↔ p ∈ init ∨ p ∈ l := by
  induction l generalizing init with
  | nil => simp
  | cons c tl ih =>
    simp only [List.foldl_cons, ih, mem_insertPos, List.mem_cons]
    tauto

/-- `moveAgent` only touches `agents` and `energy_used`. -/
theorem moveAgent_frame (w : World) (uid : String) (p : Pos) :
    (moveAgent w uid p).fires = w.fires ∧
    (moveAgent w uid p).rubble = w.rubble ∧
    (moveAgent w uid p).invalid_json = w.invalid_json ∧
    (moveAgent w uid p).queues = w.queues := by
  unfold moveAgent
  split
  · exact ⟨rfl, rfl, rfl, rfl⟩
  · split
    · exact ⟨rfl, rfl, rfl, rfl⟩
    · exact ⟨rfl, rfl, rfl, rfl⟩

/-- `extinguishFire` only removes burning cells and touches the truck. -/
theorem extinguishFire_frame (w : World) (uid : String) :
    (∀ p ∈ (extinguishFire w uid).fires, p ∈ w.fires) ∧
    (extinguishFire w uid).rubble = w.rubble ∧
    (extinguishFire w uid).invalid_json = w.invalid_json ∧
    (extinguishFire w uid).queues = w.queues := by
  unfold extinguishFire
  split
  · exact ⟨fun p hp => hp, rfl, rfl, rfl⟩
  · split
    · split
      · refine ⟨fun p hp => ?_, rfl, rfl, rfl⟩
        simpa using (List.mem_filter.mp hp).1
      · exact ⟨fun p hp => hp, rfl, rfl, rfl⟩
    · exact ⟨fun p hp => hp, rfl, rfl, rfl⟩

/-- `pickupSurvivor` only touches agent records. -/
theorem pickupSurvivor_frame (w : World) (uid : String) :
    (pickupSurvivor w uid).fires = w.fires ∧
    (pickupSurvivor w uid).rubble = w.rubble ∧
    (pickupSurvivor w uid).invalid_json = w.invalid_json ∧
    (pickupSurvivor w uid).queues = w.queues := by
  unfold pickupSurvivor
  split
  · exact ⟨rfl, rfl, rfl, rfl⟩
  · split
    · exact ⟨rfl, rfl, rfl, rfl⟩
    · split
      · exact ⟨rfl, rfl, rfl, rfl⟩
      · exact ⟨rfl, rfl, rfl, rfl⟩

/-- `dropAtHospital` only touches agents, queues and the overflow count. -/
theorem dropAtHospital_frame (w : World) (uid : String) :
    (dropAtHospital w uid).fires = w.fires ∧
    (dropAtHospital w uid).rubble = w.rubble ∧
    (dropAtHospital w uid).invalid_json = w.invalid_json := by
  unfold dropAtHospital
  split
  · exact ⟨rfl, rfl, rfl⟩
  · split
    · exact ⟨rfl, rfl, rfl⟩
    · split
      · split
        · exact ⟨rfl, rfl, rfl⟩
        · exact ⟨rfl, rfl, rfl⟩
      · exact ⟨rfl, rfl, rfl⟩

/-- `moveAgentJ` succeeds with either the unchanged or the moved world. -/
theorem moveAgentJ_ok {w w2 : World} {uid : String} {vx vy : JVal}
    (h : moveAgentJ w uid vx vy = .ok w2) :
    w2 = w ∨ ∃ p, w2 = moveAgent w uid p := by
  unfold moveAgentJ at h
  split at h
  · split at h
    · exact Or.inl (Except.ok.inj h).symm
    · split at h
      · exact Or.inr ⟨_, (Except.ok.inj h).symm⟩
      · cases h
  · cases h

/-- A successful `_execute_single_command` preserves the fields no
command mutation ever touches, and never adds a burning cell. -/
theorem executeSingleCommand_ok_frame {cmd : CmdRec} {w w2 : World}
    (h : executeSingleCommand cmd w = .ok w2) :
    (∀ p ∈ w2.fires, p ∈ w.fires) ∧
    w2.rubble = w.rubble ∧
    w2.invalid_json = w.invalid_json := by
  unfold executeSingleCommand at h
  split at h
  · cases h
  · split at h
    · exact (Except.ok.inj h) ▸ ⟨fun p hp => hp, rfl, rfl⟩
    · split at h
      · split at h
        · exact (Except.ok.inj h) ▸ ⟨fun p hp => hp, rfl, rfl⟩
        · split at h
          · exact (Except.ok.inj h) ▸ ⟨fun p hp => hp, rfl, rfl⟩
          · split at h
            · cases h
            · split at h
              · exact (Except.ok.inj h) ▸ ⟨fun p hp => hp, rfl, rfl⟩
              · split at h
                · rcases moveAgentJ_ok h with rfl | ⟨p, rfl⟩
                  · exact ⟨fun p hp => hp, rfl, rfl⟩
                  · obtain ⟨h1, h2, h3, _⟩ := moveAgent_frame w _ p
                    exact ⟨fun q hq => h1 ▸ hq, h2, h3⟩
                · cases h
      · split at h
        · split at h
          · obtain ⟨h1, h2, h3, _⟩ := extinguishFire_frame w _
            cases h
            exact ⟨h1, h2, h3⟩
          · split at h
            · obtain ⟨h1, h2, h3, _⟩ := pickupSurvivor_frame w _
              cases h
              exact ⟨fun p hp => h1 ▸ hp, h2, h3⟩
            · split at h
              · obtain ⟨h1, h2, h3⟩ := dropAtHospital_frame w _
                cases h
                exact ⟨fun p hp => h1 ▸ hp, h2, h3⟩
              · exact (Except.ok.inj h) ▸ ⟨fun p hp => hp, rfl, rfl⟩
        · exact (Except.ok.inj h) ▸ ⟨fun p hp => hp, rfl, rfl⟩

/-- One caught command: fires never grow, rubble is untouched, and the
invalid counter grows exactly when the command raised. -/
theorem execOne_frame (w : World) (cmd : CmdRec) :
    (∀ p ∈ (execOne w cmd).fires, p ∈ w.fires) ∧
    (execOne w cmd).rubble = w.rubble ∧
    (execOne w cmd).invalid_json =
      w.invalid_json + (if (executeSingleCommand cmd w).isOk then 0 else 1) := by
  unfold execOne
  split
  · rename_i w2 h
    obtain ⟨h1, h2, h3⟩ := executeSingleCommand_ok_frame h
    refine ⟨h1, h2, ?_⟩
    rw [h, h3]
    rfl
  · rename_i e h
    refine ⟨fun p hp => hp, rfl, ?_⟩
    rw [h]
    rfl

theorem executeCommands_frame (w : World) (cmds : List CmdRec) :
    (∀ p ∈ (executeCommands w cmds).fires, p ∈ w.fires) ∧
    (executeCommands w cmds).rubble = w.rubble := by
  induction cmds generalizing w with
  | nil => exact ⟨fun p hp => hp, rfl⟩
  | cons c tl ih =>
    obtain ⟨h1, h2⟩ := ih (execOne w c)
    obtain ⟨g1, g2, _⟩ := execOne_frame w c
    exact ⟨fun p hp => g1 p (h1 p hp), h2.trans g2⟩

theorem scheduleStep_frame (w : World) :
    (scheduleStep w).fires = w.fires ∧
    (scheduleStep w).rubble = w.rubble ∧
    (scheduleStep w).queues = w.queues ∧
    (scheduleStep w).invalid_json = w.invalid_json :=
  ⟨rfl, rfl, rfl, rfl⟩

/-- Any cell in the accumulator after the spread attempts from one
burning cell was already accumulated or is a bounded cell outside the
tick-start fire set and outside the rubble. -/
theorem spreadFromCell_mem {S : Type} (next : Sampler S) (w : World)
    (p : Pos) (acc : List Pos × S) (q : Pos)
    (h : q ∈ (spreadFromCell next w p acc).1) :
    q ∈ acc.1 ∨ (q ∉ w.fires ∧ q ∉ w.rubble) := by
  unfold spreadFromCell at h
  generalize hds : neighborOffsets = ds at h
  clear hds
  induction ds generalizing acc with
  | nil => exact Or.inl h
  | cons d tl ih =>
    simp only [List.foldl_cons] at h
    rcases ih _ h with hmem | hsafe
    · split at hmem
      · rename_i hc
        split at hmem
        · rcases mem_insertPos.mp hmem with rfl | hold
          · exact Or.inr ⟨hc.2.2.2.2.1, hc.2.2.2.2.2⟩
          · exact Or.inl hold
        · exact Or.inl hmem
      · exact Or.inl hmem
    · exact Or.inr hsafe

/-- All newly spread cells avoid the tick-start fires and the rubble. -/
theorem newFires_mem {S : Type} (next : Sampler S) (w : World)
    (cells : List Pos) (acc : List Pos × S) (q : Pos)
    (h : q ∈ (cells.foldl (fun acc p => spreadFromCell next w p acc) acc).1) :
    q ∈ acc.1 ∨ (q ∉ w.fires ∧ q ∉ w.rubble) := by
  induction cells generalizing acc with
  | nil => exact Or.inl h
  | cons c tl ih =>
    simp only [List.foldl_cons] at h
    rcases ih _ h with hmem | hsafe
    · exact spreadFromCell_mem next w c acc q hmem
    · exact Or.inr hsafe

/-- Fire spread never reaches a rubble cell, and leaves rubble alone. -/
theorem applyDynamics_rubble {S : Type} (next : Sampler S) (w : World) (s : S)
    (hinv : ∀ p ∈ w.fires, p ∉ w.rubble) :
    (∀ p ∈ (applyDynamics next w s).1.fires, p ∉ (applyDynamics next w s).1.rubble) ∧
    (applyDynamics next w s).1.rubble = w.rubble := by
  refine ⟨fun p hp => ?_, rfl⟩
  unfold applyDynamics at hp ⊢
  rcases mem_foldl_insertPos.mp hp with hold | hnew
  · exact hinv p hold
  · rcases newFires_mem next w w.fires ([], s) p hnew with hemp | hsafe
    · simp at hemp
    · exact hsafe.2

/-- A successful hospital service step leaves terrain, counters other
than `rescued`, and the command counter untouched. -/
theorem processOneHospital_frame {S : Type} (next : Sampler S) {w w2 : World}
    {q q2 : List String} {s s2 : S}
    (h : processOneHospital next w q s = .ok (w2, q2, s2)) :
    w2.fires = w.fires ∧ w2.rubble = w.rubble ∧
    w2.invalid_json = w.invalid_json ∧ w2.queues = w.queues := by
  unfold processOneHospital at h
  repeat' split at h
  all_goals
    first
    | exact Except.noConfusion h
    | (injection h with h1
       rw [Prod.mk.injEq, Prod.mk.injEq] at h1
       obtain ⟨rfl, -, -⟩ := h1
       exact ⟨rfl, rfl, rfl, rfl⟩)

theorem processQueues_frame {S : Type} (next : Sampler S) :
    ∀ (qs : List (Pos × List String)) {w w2 : World}
      {qs2 : List (Pos × List String)} {s s2 : S},
      processQueues next qs w s = .ok (qs2, w2, s2) →
      w2.fires = w.fires ∧ w2.rubble = w.rubble ∧
      w2.invalid_json = w.invalid_json ∧ w2.queues = w.queues := by
  intro qs
  induction qs with
  | nil =>
    intro w w2 qs2 s s2 h
    unfold processQueues at h
    cases h
    exact ⟨rfl, rfl, rfl, rfl⟩
  | cons e tl ih =>
    intro w w2 qs2 s s2 h
    obtain ⟨p, q⟩ := e
    unfold processQueues at h
    simp only [bind, Except.bind] at h
    split at h
    · cases h
    · rename_i res h1
      obtain ⟨w1, q1, s1⟩ := res
      split at h
      · cases h
      · rename_i res2 h2
        obtain ⟨tl1, wb, sb⟩ := res2
        cases h
        obtain ⟨a1, a2, a3, a4⟩ := processOneHospital_frame next h1
        obtain ⟨b1, b2, b3, b4⟩ := ih h2
        exact ⟨b1.trans a1, b2.trans a2, b3.trans a3, b4.trans a4⟩

theorem processHospitals_frame {S : Type} (next : Sampler S) {w w2 : World}
    {s s2 : S} (h : processHospitals next w s = .ok (w2, s2)) :
    w2.fires = w.fires ∧ w2.rubble = w.rubble ∧
    w2.invalid_json = w.invalid_json := by
  unfold processHospitals at h
  simp only [bind, Except.bind] at h
  split at h
  · cases h
  · rename_i res h1
    obtain ⟨qs, w1, s1⟩ := res
    cases h
    obtain ⟨a1, a2, a3, _⟩ := processQueues_frame next w.queues h1
    exact ⟨a1, a2, a3⟩

/-- One tick preserves fires-avoid-rubble and leaves the rubble set as it
was (nothing in the engine ever clears or creates rubble). -/
theorem stepWorld_rubble {S : Type} (next : Sampler S) (cmds : List CmdRec)
    {w w2 : World} {s s2 : S}
    (hinv : ∀ p ∈ w.fires, p ∉ w.rubble)
    (h : stepWorld next cmds w s = .ok (w2, s2)) :
    (∀ p ∈ w2.fires, p ∉ w2.rubble) ∧ w2.rubble = w.rubble := by
  unfold stepWorld at h
  simp only [bind, Except.bind] at h
  set wa := { w with time := w.time + 1, tool_calls := w.tool_calls + cmds.length }
  have hinva : ∀ p ∈ wa.fires, p ∉ wa.rubble := hinv
  obtain ⟨e1, e2⟩ := executeCommands_frame wa cmds
  set wb := executeCommands wa cmds
  have hinvb : ∀ p ∈ wb.fires, p ∉ wb.rubble := by
    intro p hp
    rw [e2]
    exact hinva p (e1 p hp)
  set wc := scheduleStep wb
  have hinvc : ∀ p ∈ wc.fires, p ∉ wc.rubble := hinvb
  obtain ⟨d1, d2⟩ := applyDynamics_rubble next wc s hinvc
  revert h
  have hdyn : applyDynamics next wc s = ((applyDynamics next wc s).1, (applyDynamics next wc s).2) := rfl
  rw [hdyn]
  intro h
  obtain ⟨f1, f2, _⟩ := processHospitals_frame next h
  constructor
  · intro p hp
    rw [f2]
    exact d1 p (f1 ▸ hp)
  · rw [f2, d2]
    exact e2

/-- Any number of ticks preserves fires-avoid-rubble with the rubble set
constant. -/
theorem runTicks_rubble {S : Type} (next : Sampler S) :
    ∀ (cmdss : List (List CmdRec)) {w w2 : World} {s s2 : S},
      (∀ p ∈ w.fires, p ∉ w.rubble) →
      runTicks next cmdss w s = .ok (w2, s2) →
      (∀ p ∈ w2.fires, p ∉ w2.rubble) ∧ w2.rubble = w.rubble := by
  intro cmdss
  induction cmdss with
  | nil =>
    intro w w2 s s2 hinv h
    unfold runTicks at h
    injection h with h1
    rw [Prod.mk.injEq] at h1
    obtain ⟨rfl, -⟩ := h1
    exact ⟨hinv, rfl⟩
  | cons cmds tl ih =>
    intro w w2 s s2 hinv h
    unfold runTicks at h
    simp only [bind, Except.bind] at h
    split at h
    · exact Except.noConfusion h
    · rename_i res h1
      obtain ⟨w1, s1⟩ := res
      obtain ⟨g1, g2⟩ := stepWorld_rubble next cmds hinv h1
      obtain ⟨k1, k2⟩ := ih g1 h
      exact ⟨k1, k2.trans g2⟩

/-- `find?` commutes with a map that does not disturb the predicate. -/
theorem find?_map_of_pred {α : Type} (l : List α) (p : α → Bool) (f : α → α)
    (hp : ∀ a, p (f a) = p a) :
    (l.map f).find? p = (l.find? p).map f := by
  induction l with
  | nil => rfl
  | cons a tl ih =>
    cases hpa : p a
    · have hfa : p (f a) = false := (hp a).trans hpa
      rw [List.map_cons, List.find?_cons_of_neg _ (by simp [hfa]),
        List.find?_cons_of_neg _ (by simp [hpa]), ih]
    · have hfa : p (f a) = true := (hp a).trans hpa
      rw [List.map_cons, List.find?_cons_of_pos _ hfa,
        List.find?_cons_of_pos _ hpa, Option.map_some']

/-- The per-uid update map used by `_move_agent` keeps uids intact. -/
theorem moveUpd_pred (uid : String) (p : Pos) (a : AgentSt) :
    (decide ((if a.uid = uid then
        { a with pos := p, battery := a.battery.map fun b => max 0 (b - 1) }
      else a).uid = uid)) = decide (a.uid = uid) := by
  split <;> rename_i h <;> simp [h]

/-- A successful move updates exactly the addressed agent. -/
theorem moveAgent_find (w : World) (uid : String) (p : Pos) (a : AgentSt)
    (hfind : w.agents.find? (fun b => b.uid = uid) = some a)
    (hin : inB w p) (hrub : p ∉ w.rubble) :
    (moveAgent w uid p).agents.find? (fun b => b.uid = uid) =
      some { a with pos := p, battery := a.battery.map fun b => max 0 (b - 1) } ∧
    (moveAgent w uid p).energy_used = w.energy_used + 1 := by
  have ha : a.uid = uid := by
    have := List.find?_some hfind
    simpa using this
  unfold moveAgent
  rw [if_neg (by simpa using hin), if_neg (by simpa using hrub)]
  refine ⟨?_, rfl⟩
  rw [find?_map_of_pred _ _ _ (moveUpd_pred uid p), hfind, Option.map_some',
    if_pos ha]

/-- Integer coordinates make the raw-value move agree with `_move_agent`
(including the silent rejection when the first coordinate already fails
the bounds check). -/
theorem moveAgentJ_int (w : World) (uid : String) (x y : ℤ) :
    moveAgentJ w uid (.jint x) (.jint y) = .ok (moveAgent w uid (x, y)) := by
  by_cases hx : 0 ≤ x ∧ x < w.width
  · simp [moveAgentJ, hx]
  · have hnb : ¬ inB w (x, y) := by
      unfold inB
      dsimp only
      tauto
    simp [moveAgentJ, hx, moveAgent, hnb]

/-- The invalid-command counter advances by exactly the number of
commands that raised internally. -/
theorem executeCommands_invalid (w : World) (cmds : List CmdRec) :
    (executeCommands w cmds).invalid_json = w.invalid_json + countFailedRun w cmds := by
  induction cmds generalizing w with
  | nil => rfl
  | cons c tl ih =>
    show (executeCommands (execOne w c) tl).invalid_json = _
    rw [ih, countFailedRun]
    obtain ⟨-, -, h3⟩ := execOne_frame w c
    rw [h3]
    omega

/-! ### Claim theorems -/

/-- **C2** (amended): the executed fire dynamics protect only rubble (and
already-burning cells); over any number of ticks from any state whose
fires avoid the rubble, fires still avoid the rubble, and the rubble set
itself never changes. (Hospital and depot cells are *not* protected: see
the counterexample.) -/
theorem fire_containment_rubble_only {S : Type} (next : Sampler S)
    (cmdss : List (List CmdRec)) (w w2 : World) (s s2 : S)
    (hinv : ∀ p ∈ w.fires, p ∉ w.rubble)
    (hrun : runTicks next cmdss w s = .ok (w2, s2)) :
    (∀ p ∈ w2.fires, p ∉ w2.rubble) ∧ w2.rubble = w.rubble :=
  runTicks_rubble next cmdss hinv hrun

/-- **C4**: per hospital per tick, an empty queue consumes no draw and
changes nothing; on a failed service draw the queue and all counters are
unchanged; on a successful draw exactly the FIFO head is popped, marked
rescued, the global rescued counter increments by exactly one and the
recorded latency is the current tick minus the survivor's pick-up tick. -/
theorem hospital_service_fifo_step {S : Type} (next : Sampler S) (w : World)
    (q : List String) (s : S) (r : ℚ) (s1 : S) (hnext : next s = (r, s1)) :
    (q = [] → processOneHospital next w q s = .ok (w, q, s)) ∧
    ∀ uid rest, q = uid :: rest →
      (¬ r < w.hospital_service_rate →
        processOneHospital next w q s = .ok (w, q, s1)) ∧
      ∀ a t, r < w.hospital_service_rate →
        w.agents.find? (fun b => b.uid = uid) = some a →
        a.pickedTime = some t →
        processOneHospital next w q s =
          .ok ({ w with agents := setAgentRescued w.agents uid,
                        rescued := w.rescued + 1,
                        rescue_times := w.rescue_times ++ [(w.time : ℤ) - (t : ℤ)] },
               rest, s1) := by
  constructor
  · rintro rfl
    rfl
  · rintro uid rest rfl
    constructor
    · intro hr
      simp only [processOneHospital, hnext, if_neg hr]
    · intro a t hr hfind hpt
      simp only [processOneHospital, hnext, if_pos hr, hfind, hpt]

/-- **C5**: a `move` command to an out-of-bounds or rubble cell leaves
the world untouched; otherwise the addressed agent's position becomes
exactly the target, its battery (when it has one) drops by 1 with a floor
of 0, and the energy counter increments by exactly one. -/
theorem move_command_semantics (w : World) (uid : String) (p : Pos)
    (a : AgentSt) (hfind : w.agents.find? (fun b => b.uid = uid) = some a) :
    ((¬ inB w p ∨ p ∈ w.rubble) → moveAgent w uid p = w) ∧
    (inB w p → p ∉ w.rubble →
      (moveAgent w uid p).agents.find? (fun b => b.uid = uid) =
        some { a with pos := p, battery := a.battery.map fun b => max 0 (b - 1) } ∧
      (moveAgent w uid p).energy_used = w.energy_used + 1) := by
  constructor
  · rintro (hnb | hrub)
    · unfold moveAgent
      rw [if_pos hnb]
    · unfold moveAgent
      by_cases hib : inB w p
      · rw [if_neg (not_not_intro hib), if_pos hrub]
      · rw [if_pos hib]
  · intro hin hrub
    exact moveAgent_find w uid p a hfind hin hrub

/-- **C6** (amended): an `act` command addressed to a survivor is a
silent no-op, but a `move` command addressed to a survivor is *not*
rejected: it behaves exactly like `_move_agent` on that survivor (any
registered entity is movable). -/
theorem survivor_actor_semantics (w : World) (aid : String) (a : AgentSt)
    (hfind : w.agents.find? (fun b => b.uid = aid) = some a)
    (hkind : a.kind = "survivor") :
    (∀ cto caction,
      executeSingleCommand (.mk (some (.jstr aid)) (some (.jstr "act")) cto caction) w
        = .ok w) ∧
    ∀ x y : ℤ,
      executeSingleCommand (.mk (some (.jstr aid)) (some (.jstr "move"))
          (some (.jlist [.jint x, .jint y])) none) w
        = .ok (moveAgent w a.uid (x, y)) := by
  constructor
  · intro cto caction
    simp only [executeSingleCommand, findAgent, hfind]
    rw [if_neg (by decide), if_pos (by decide),
      if_neg (fun hc => by rw [hkind] at hc; exact absurd hc.2 (by decide)),
      if_neg (fun hc => by rw [hkind] at hc; exact absurd hc.2 (by decide)),
      if_neg (fun hc => by rw [hkind] at hc; exact absurd hc.2 (by decide))]
  · intro x y
    simp only [executeSingleCommand, findAgent, hfind]
    rw [if_pos (by decide)]
    simp only [truthy, jlen, List.isEmpty, Bool.not_false, moveAgentJ_int]
    rfl

/-- **C7**: a drop by a carrying medic on a hospital cell always appends
the held survivor to that hospital's queue (admission is never rejected,
whatever the queue length), bumps the overflow counter exactly when the
queue length after the append exceeds 5, and clears the carrying state;
when the survivor reference is absent only the carrying state is
cleared. -/
theorem drop_at_hospital_semantics (w : World) (uid : String) (a : AgentSt)
    (hfind : w.agents.find? (fun b => b.uid = uid) = some a)
    (hcar : a.carrying = true) (hpos : a.pos ∈ w.hospitals) :
    (∀ sv, a.carryingSurvivor = some sv →
      dropAtHospital w uid =
        { w with
          queues := qSet w.queues a.pos (qGetD w.queues a.pos ++ [sv]),
          hospital_overflow_events := w.hospital_overflow_events +
            (if 5 < (qGetD w.queues a.pos ++ [sv]).length then 1 else 0),
          agents := clearCarry w.agents uid }) ∧
    (a.carryingSurvivor = none →
      dropAtHospital w uid = { w with agents := clearCarry w.agents uid }) := by
  constructor
  · intro sv hsv
    simp only [dropAtHospital, hfind, if_neg (not_not_intro hcar), if_pos hpos, hsv]
  · intro hsv
    simp only [dropAtHospital, hfind, if_neg (not_not_intro hcar), if_pos hpos, hsv]

/-- **C8**: the command executor is a total function — every command,
however malformed, either applies or is swallowed; a command that raises
internally leaves every field of the world unchanged except the
invalid-command counter, and across a list the counter advances by
exactly the number of internally-raising commands. -/
theorem executor_never_raises (w : World) (cmds : List CmdRec) :
    (executeCommands w cmds).invalid_json = w.invalid_json + countFailedRun w cmds ∧
    ∀ (c : CmdRec) (w0 : World), executeSingleCommand c w0 = .error () →
      execOne w0 c = { w0 with invalid_json := w0.invalid_json + 1 } := by
  refine ⟨executeCommands_invalid w cmds, fun c w0 h => ?_⟩
  simp only [execOne, h]

/-- **C9**: the engine is a deterministic function of width, height, the
random seed, the configuration and the per-tick command lists — two runs
with identical inputs produce identical results (the embedding threads an
explicit seeded pseudo-random stream; nothing else feeds the engine). -/
theorem engine_deterministic (width height : ℤ) (seed : ℕ) (cfg : Config)
    (cmdss : List (List CmdRec)) (r1 r2 : Except Unit (World × ℕ))
    (h1 : r1 = runSeeded width height seed cfg cmdss)
    (h2 : r2 = runSeeded width height seed cfg cmdss) :
    r1 = r2 :=
  h1.trans h2.symm

/-- **C10**: `move` imposes no adjacency or distance restriction — the
hypotheses mention only bounds and rubble, never the agent's current
position, so a single command relocates the agent to any legal cell
(including its own cell, which still costs battery and energy). -/
theorem move_unrestricted_distance (w : World) (uid : String) (p : Pos)
    (a : AgentSt) (hfind : w.agents.find? (fun b => b.uid = uid) = some a)
    (hin : inB w p) (hrub : p ∉ w.rubble) :
    (moveAgent w uid p).agents.find? (fun b => b.uid = uid) =
      some { a with pos := p, battery := a.battery.map fun b => max 0 (b - 1) } ∧
    (moveAgent w uid p).energy_used = w.energy_used + 1 :=
  moveAgent_find w uid p a hfind hin hrub

section

attribute [local semireducible] Rat.add Rat.mul Rat.sub Rat.inv

set_option maxRecDepth 100000

/-- **C1**: the lifecycle is *not* a subsequence of the two advertised
chains - `_pickup_survivor` never tests the `_dead` flag, so a survivor
that starved on the map is picked up, queued and serviced: after the
102-tick run it is simultaneously `Dead` and `Rescued`, and it is counted
in both the deaths and the rescued totals. -/
theorem dead_survivor_rescued_bug :
    ((wC1.agents.find? fun a => a.uid = "survivor_0").map fun a =>
      (a.picked, a.dead, a.rescued)) = some (true, true, true) ∧
    wC1.deaths = 1 ∧ wC1.rescued = 1 ∧ wC1.total_survivors = 1 := by
  decide

/-- **C2** counterexample: in the 2×1 world whose initial fire `(0,0)`
touches no hospital, depot or rubble cell, one tick of the executed
dynamics (under an always-spread draw stream) sets the hospital cell
`(1,0)` on fire - `_apply_dynamics` checks only fires and rubble. -/
theorem fire_spreads_onto_hospital_cex :
    (∀ p ∈ wC2init.fires,
      p ∉ wC2init.hospitals ∧ p ∉ wC2init.rubble ∧ wC2init.depot ≠ some p) ∧
    (1, 0) ∈ wC2.fires ∧ (1, 0) ∈ wC2.hospitals := by
  decide

/-- Witness for the amended C2 theorem: a concrete 3×3 run with rubble,
two ticks of maximal spread, fires still avoid the rubble. -/
theorem fire_containment_rubble_only_witness :
    (∀ p ∈ wC2b.fires, p ∉ wC2b.rubble) ∧
    (∀ p ∈ (getOkWorld rC2b).fires, p ∉ (getOkWorld rC2b).rubble) ∧
    (getOkWorld rC2b).rubble = wC2b.rubble :=
  ⟨by decide,
   (fire_containment_rubble_only (streamSampler fun _ => 0) [[], []] wC2b
     (getOkWorld rC2b) 2 (getOkState rC2b) (by decide) (by decide)).1,
   (fire_containment_rubble_only (streamSampler fun _ => 0) [[], []] wC2b
     (getOkWorld rC2b) 2 (getOkState rC2b) (by decide) (by decide)).2⟩

/-- **C3** counterexample: on the no-obstacle 4×5 grid the claimed cost 7
(the Manhattan distance) is wrong - the source returns
`cost = len(path)`, which counts the 8 cells, not the 7 steps. -/
theorem shortest_path_cost_not_manhattan_cex :
    manhattan (0, 0) (3, 4) = 7 ∧
    (shortest_path mNoObs (0, 0) (3, 4) ["fire", "rubble"]).cost ≠ some 7 ∧
    (shortest_path mNoObs (0, 0) (3, 4) ["fire", "rubble"]).cost = some 8 := by
  decide

/-- **C3** (amended): the no-obstacle query returns `status = ok`, the
8-cell inclusive path from `(0,0)` to `(3,4)`, and `cost = 8`: the number
of cells of the returned path (= steps + 1), which is what `shortest_path`
returns in general whenever it returns a cost at all. -/
theorem shortest_path_cost_counts_cells :
    (shortest_path mNoObs (0, 0) (3, 4) ["fire", "rubble"]).status = "ok" ∧
    (shortest_path mNoObs (0, 0) (3, 4) ["fire", "rubble"]).path.length = 8 ∧
    (shortest_path mNoObs (0, 0) (3, 4) ["fire", "rubble"]).path.head? = some (0, 0) ∧
    (shortest_path mNoObs (0, 0) (3, 4) ["fire", "rubble"]).path.getLast? = some (3, 4) ∧
    (shortest_path mNoObs (0, 0) (3, 4) ["fire", "rubble"]).cost = some 8 ∧
    ∀ (m : SPModel) (st g : Pos) (av : List String),
      (shortest_path m st g av).cost = none ∨
      (shortest_path m st g av).cost = some (shortest_path m st g av).path.length := by
  refine ⟨by decide, by decide, by decide, by decide, by decide, ?_⟩
  intro m st g av
  simp only [shortest_path]
  split
  · exact Or.inl rfl
  · exact Or.inr rfl

/-- Witness for C4: in `wEx`, a successful draw (`1/10 < 3/10`) pops
exactly `q1`, counts one rescue and records latency `7 − 2`. -/
theorem hospital_service_fifo_step_witness :
    (1 : ℚ) / 10 < wEx.hospital_service_rate ∧
    processOneHospital (streamSampler fun _ => 1 / 10) wEx ["q1", "q2"] 0 =
      .ok ({ wEx with agents := setAgentRescued wEx.agents "q1",
                      rescued := wEx.rescued + 1,
                      rescue_times := wEx.rescue_times ++ [(wEx.time : ℤ) - ((2 : ℕ) : ℤ)] },
           ["q2"], 1) :=
  ⟨by decide,
   ((hospital_service_fifo_step (streamSampler fun _ => 1 / 10) wEx ["q1", "q2"] 0
       (1 / 10) 1 rfl).2 "q1" ["q2"] rfl).2 q1Ex 2 (by decide) (by decide) (by decide)⟩

/-- Witness for C5: the drone moves from `(0,0)` to the in-bounds
non-rubble cell `(2,2)`, batteries and energy accounted. -/
theorem move_command_semantics_witness :
    inB wEx (2, 2) ∧ (2, 2) ∉ wEx.rubble ∧
    ((moveAgent wEx "drone_0" (2, 2)).agents.find? (fun b => b.uid = "drone_0") =
      some { droneEx with
             pos := (2, 2),
             battery := droneEx.battery.map fun b => max 0 (b - 1) } ∧
     (moveAgent wEx "drone_0" (2, 2)).energy_used = wEx.energy_used + 1) :=
  ⟨by decide, by decide,
   (move_command_semantics wEx "drone_0" (2, 2) droneEx (by decide)).2
     (by decide) (by decide)⟩

/-- **C6** counterexample: the survivor of the C1 scenario sits at
`(2,2)`; a single `move` command addressed to it relocates it to `(1,1)`
and even burns energy - far from being rejected with no mutation. -/
theorem survivor_move_not_rejected_cex :
    ((wC1init.agents.find? fun a => a.uid = "survivor_0").map fun a => a.pos) =
      some (2, 2) ∧
    ((wC6.agents.find? fun a => a.uid = "survivor_0").map fun a => a.pos) =
      some (1, 1) ∧
    wC6.energy_used = wC1init.energy_used + 1 := by
  decide

/-- Witness for the amended C6 theorem: on the concrete C1 initial world,
an `act` command for the survivor is a no-op while a `move` command for
the survivor equals `_move_agent` applied to it. -/
theorem survivor_actor_semantics_witness :
    executeSingleCommand (.mk (some (.jstr "survivor_0")) (some (.jstr "act"))
        none (some (.jstr "pickup_survivor"))) wC1init = .ok wC1init ∧
    executeSingleCommand (.mk (some (.jstr "survivor_0")) (some (.jstr "move"))
        (some (.jlist [.jint 1, .jint 1])) none) wC1init =
      .ok (moveAgent wC1init "survivor_0" (1, 1)) := by
  have hfind : wC1init.agents.find? (fun b => b.uid = "survivor_0") =
      some { uid := "survivor_0", kind := "survivor", pos := (2, 2),
             health := 100, spawnTime := 0 } := by decide
  have h := survivor_actor_semantics wC1init "survivor_0" _ hfind (by decide)
  exact ⟨h.1 none (some (.jstr "pickup_survivor")), h.2 1 1⟩

/-- Witness for C7: dropping at the full queue of `wEx` (five already
queued) appends `sv0` anyway and raises the overflow counter. -/
theorem drop_at_hospital_semantics_witness :
    medicEx.carryingSurvivor = some "sv0" ∧
    (qGetD wEx.queues medicEx.pos).length = 5 ∧
    dropAtHospital wEx "medic_0" =
      { wEx with
        queues := qSet wEx.queues medicEx.pos (qGetD wEx.queues medicEx.pos ++ ["sv0"]),
        hospital_overflow_events := wEx.hospital_overflow_events +
          (if 5 < (qGetD wEx.queues medicEx.pos ++ ["sv0"]).length then 1 else 0),
        agents := clearCarry wEx.agents "medic_0" } :=
  ⟨by decide, by decide,
   (drop_at_hospital_semantics wEx "medic_0" medicEx (by decide) (by decide)
     (by decide)).1 "sv0" (by decide)⟩

/-- Witness for C8: a list holding a valid move, a command whose `to` is
a bare integer (raises at `len`), and a non-dict command; the counter
advances accordingly and a raising command only bumps the counter. -/
theorem executor_never_raises_witness :
    (executeCommands wEx [mkMove "drone_0" 1 1, cmdBadLen, CmdRec.bad]).invalid_json =
      wEx.invalid_json + countFailedRun wEx [mkMove "drone_0" 1 1, cmdBadLen, CmdRec.bad] ∧
    execOne wEx CmdRec.bad = { wEx with invalid_json := wEx.invalid_json + 1 } :=
  ⟨(executor_never_raises wEx [mkMove "drone_0" 1 1, cmdBadLen, CmdRec.bad]).1,
   (executor_never_raises wEx []).2 CmdRec.bad wEx rfl⟩

/-- Witness for C9: two seeded runs of the C1 configuration coincide. -/
theorem engine_deterministic_witness :
    runSeeded 3 3 42 cfgC1 [[], []] = runSeeded 3 3 42 cfgC1 [[], []] :=
  engine_deterministic 3 3 42 cfgC1 [[], []] _ _ rfl rfl

/-- Witness for C10: moving the drone onto its *own* cell `(0,0)` - a
distance-0 move - still succeeds, drains one battery unit and bumps the
energy counter. -/
theorem move_unrestricted_distance_witness :
    droneEx.pos = (0, 0) ∧
    ((moveAgent wEx "drone_0" (0, 0)).agents.find? (fun b => b.uid = "drone_0") =
      some { droneEx with
             pos := (0, 0),
             battery := droneEx.battery.map fun b => max 0 (b - 1) } ∧
     (moveAgent wEx "drone_0" (0, 0)).energy_used = wEx.energy_used + 1) :=
  ⟨by decide,
   move_unrestricted_distance wEx "drone_0" (0, 0) droneEx (by decide)
     (by decide) (by decide)⟩

end

end Crisis
